import Mathlib

/-!
Verification of the capture-normalize-classify-persist pipeline of the CCM
repository (src/analyzer.py, src/models.py, src/storage.py).

Shallow embedding conventions:
* Python `str` values are Lean `String`s; `str.strip`, `str.lower` and the
  regex scanners of analyzer.py are modelled character by character on
  `List Char` (ASCII-faithful: Python's Unicode-aware `\w`, `\s`, `\d` and
  `str.lower` agree with these models on all ASCII data handled here).
* Python numbers are exact: `int` is `ℤ`, `float` is `ℚ`; `round` is
  round-half-to-even (`pyRound`).
* `None` is `Option.none`; Python truthiness tests on strings compare
  against `""`.
* The openpyxl workbook is an ordered association list of sheets, each a
  list of rows of cells.  A freshly created sheet has no rows, matching
  `ws.max_row == 1` with empty first row.  `IllegalCharacterError` is the
  documented openpyxl behaviour: raised when a string cell contains a
  control character outside tab/newline/carriage-return; the partial cell
  writes of a failed `ws.append` are not modelled (no claim depends on
  them).
* Module-level state of storage.py (`wb`, `archivo_excel`, the WAL file,
  the commit marker and the saved .xlsx file) is an explicit
  `StorageState`; file-system effects become fields of that state.
-/

namespace CCM

/-- Python `\s` / `str.strip` whitespace (ASCII part). -/
def pyIsSpace (c : Char) : Bool :=
  c = ' ' || c = '\t' || c = '\n' || c = '\x0d' || c = '\x0b' || c = '\x0c'

/-- Python `str.strip()` on a character list. -/
def stripChars (cs : List Char) : List Char :=
  ((cs.dropWhile pyIsSpace).reverse.dropWhile pyIsSpace).reverse

/-- Python `str.strip()`. -/
def pyStrip (s : String) : String := ⟨stripChars s.data⟩

/-- Python `str.lower()` on one character (ASCII range). -/
def pyLowerChar (c : Char) : Char :=
  if 'A' ≤ c ∧ c ≤ 'Z' then Char.ofNat (c.toNat + 32) else c

/-- Python `str.lower()`. -/
def pyLower (s : String) : String := ⟨s.data.map pyLowerChar⟩

/-- Python `\d` (ASCII decimal digit). -/
def isDigitChar (c : Char) : Bool := '0' ≤ c ∧ c ≤ '9'

def digitVal (c : Char) : ℕ := c.toNat - '0'.toNat

/-- Python `int()` of a nonempty string of decimal digits. -/
def digitsToNat (cs : List Char) : ℕ := cs.foldl (fun a c => a * 10 + digitVal c) 0

/-- Lexicographic `<` on character lists by code point: Python string `<`. -/
def charListLtb : List Char → List Char → Bool
  | [], [] => false
  | [], _ :: _ => true
  | _ :: _, [] => false
  | x :: xs, y :: ys =>
    if x.toNat < y.toNat then true
    else if y.toNat < x.toNat then false
    else charListLtb xs ys

/-- Python string `<`. -/
def pyStrLtb (a b : String) : Bool := charListLtb a.data b.data

/-- Python `f"{n:02d}"`. -/
def pad2 (n : ℤ) : String := if 0 ≤ n ∧ n < 10 then "0" ++ toString n else toString n

/-- Python `f"{n:03d}"` for a natural number. -/
def pad3 (n : ℕ) : String :=
  if n < 10 then "00" ++ toString n
  else if n < 100 then "0" ++ toString n
  else toString n

/-- Python `round`: round half to even. -/
def pyRound (q : ℚ) : ℤ :=
  let f := ⌊q⌋
  let r := q - (f : ℚ)
  if r < 1 / 2 then f
  else if 1 / 2 < r then f + 1
  else if f % 2 = 0 then f else f + 1

/-- Python `float()` restricted to the strings the parsers can produce:
digits and dots (commas were already replaced by dots).  Fails — like
`float` — when there is no digit, more than one dot, or the string is
empty. -/
def pyFloatOfChars : List Char → Option ℚ := fun cs =>
  if cs ≠ [] ∧ cs.all (fun c => isDigitChar c || c = '.') ∧ cs.any isDigitChar
      ∧ cs.count '.' ≤ 1 then
    let ip := cs.takeWhile (fun c => c ≠ '.')
    let fp := (cs.dropWhile (fun c => c ≠ '.')).drop 1
    some ((digitsToNat ip : ℚ) + (digitsToNat fp : ℚ) / ((10 : ℚ) ^ fp.length))
  else none

/-- Python `\w` (ASCII part), used for the `\b` boundary checks. -/
def isWordChar (c : Char) : Bool := c.isAlphanum || c = '_'

/-- Boundary `\b` after a word character: next char absent or not a word char. -/
def wordBoundaryAfter : List Char → Bool
  | [] => true
  | c :: _ => !isWordChar c

/-- Case-insensitive literal match: drop `lit` (given lowercase) from the
front of `cs`, comparing lowered characters; `none` when it fails. -/
def ciDropLit : List Char → List Char → Option (List Char)
  | [], cs => some cs
  | _ :: _, [] => none
  | l :: ls, c :: cs => if pyLowerChar c = l then ciDropLit ls cs else none

/-- One anchored attempt of `(\d+)\s*min(?:utos)?\b` (re.I) at the head of
`cs`; returns the digit group.  `\d+` and `\s*` are matched greedily — no
shorter match can succeed, because the character after a shorter digit or
space run cannot start `min`. -/
def matchMinutosAt (cs : List Char) : Option (List Char) :=
  let ds := cs.takeWhile isDigitChar
  let rest := cs.dropWhile isDigitChar
  if ds.isEmpty then none
  else
    let rest2 := rest.dropWhile pyIsSpace
    match ciDropLit ['m', 'i', 'n'] rest2 with
    | none => none
    | some rest3 =>
      match ciDropLit ['u', 't', 'o', 's'] rest3 with
      | some rest4 =>
        if wordBoundaryAfter rest4 then some ds
        else if wordBoundaryAfter rest3 then some ds else none
      | none => if wordBoundaryAfter rest3 then some ds else none

/-- Python `re.search` for `matchMinutosAt`: leftmost successful attempt. -/
def searchMinutos : List Char → Option (List Char)
  | [] => none
  | c :: cs =>
    match matchMinutosAt (c :: cs) with
    | some g => some g
    | none => searchMinutos cs

/-- analyzer._parse_minutos: first `(\d+)\s*min(?:utos)?\b` match,
case-insensitive; `None` for empty input or no match. -/
def parse_minutos (texto : String) : Option ℤ :=
  if texto = "" then none
  else (searchMinutos texto.data).map (fun ds => (digitsToNat ds : ℤ))

/-- The character class `[\d.,]` of the speed/distance patterns. -/
def isNumGroupChar (c : Char) : Bool := isDigitChar c || c = '.' || c = ','

/-- One anchored attempt of `([\d.,]+)\s*km/?h` (re.I); returns the group. -/
def matchVelAt (cs : List Char) : Option (List Char) :=
  let g := cs.takeWhile isNumGroupChar
  let rest := cs.dropWhile isNumGroupChar
  if g.isEmpty then none
  else
    let rest2 := rest.dropWhile pyIsSpace
    match ciDropLit ['k', 'm'] rest2 with
    | none => none
    | some rest3 =>
      let rest4 := if rest3.head? = some '/' then rest3.drop 1 else rest3
      match ciDropLit ['h'] rest4 with
      | none => none
      | some _ => some g

def searchVel : List Char → Option (List Char)
  | [] => none
  | c :: cs =>
    match matchVelAt (c :: cs) with
    | some g => some g
    | none => searchVel cs

/-- analyzer._parse_vel_kmh: first `([\d.,]+)\s*km/?h` match, commas of the
group replaced by dots, converted by `float`; `None` on empty input, no
match, or a `float` failure. -/
def parse_vel_kmh (texto : String) : Option ℚ :=
  if texto = "" then none
  else
    match searchVel texto.data with
    | none => none
    | some g => pyFloatOfChars (g.map (fun c => if c = ',' then '.' else c))

/-- One anchored attempt of `([\d.,]+)\s*km\b` (re.I); returns the group. -/
def matchDistAt (cs : List Char) : Option (List Char) :=
  let g := cs.takeWhile isNumGroupChar
  let rest := cs.dropWhile isNumGroupChar
  if g.isEmpty then none
  else
    let rest2 := rest.dropWhile pyIsSpace
    match ciDropLit ['k', 'm'] rest2 with
    | none => none
    | some rest3 => if wordBoundaryAfter rest3 then some g else none

def searchDist : List Char → Option (List Char)
  | [] => none
  | c :: cs =>
    match matchDistAt (c :: cs) with
    | some g => some g
    | none => searchDist cs

/-- analyzer._parse_dist_km. -/
def parse_dist_km (texto : String) : Option ℚ :=
  if texto = "" then none
  else
    match searchDist texto.data with
    | none => none
    | some g => pyFloatOfChars (g.map (fun c => if c = ',' then '.' else c))

/-- analyzer._parse_stat_to_min_vel. -/
def parse_stat_to_min_vel (texto : String) : Option ℤ × Option ℚ :=
  if texto = "" then (none, none)
  else (parse_minutos texto, parse_vel_kmh texto)

/-- analyzer._tiempo_desde_dist_y_vel: derived duration from distance and
speed; `(None, "")` when either is absent or the speed is nonpositive. -/
def tiempo_desde_dist_y_vel (dist_km vel_kmh : Option ℚ) : Option ℤ × String :=
  match dist_km, vel_kmh with
  | some d, some v =>
    if v ≤ 0 then (none, "")
    else
      let total_seg := pyRound (d / v * 3600)
      (some total_seg, pad2 (Int.fdiv total_seg 60) ++ ":" ++ pad2 (Int.fmod total_seg 60))
  | _, _ => (none, "")

/-- models.TramoNorm: one normalized traffic-segment record.  `es_usual`
encodes the category: `some false` = Unusual, `some true` = Usual
(watchlist), `none` = Unknown. -/
structure TramoNorm where
  nombre : String
  dist_km : Option ℚ
  tiempo_min : Option ℤ
  tiempo_seg : Option ℤ
  tiempo_mmss : String
  vel_kmh : Option ℚ
  jam : Option ℤ
  es_usual : Option Bool
  current_raw : String := ""
  historic_raw : String := ""
  dist_raw : String := ""
  raw : String := ""
deriving Repr, DecidableEq

/-- One raw record as returned by the JS extraction: the dict
`{ name, current, historic, dist, jam, section_flag }`, with absent keys
already collapsed to `""` (the code reads each with `r.get(k) or ""`). -/
structure RawTramo where
  name : String
  current : String
  historic : String
  dist : String
  jam : Option ℤ
  section_flag : String
deriving Repr, DecidableEq

/-- The dedup key of TrafficDetector.detect_all:
`f"{name}||{dist_raw}||{clave_curr}"` over the stripped fields, where
`clave_curr` is the stripped current text, falling back to the stripped
historic text when the current one is empty. -/
def claveOf (r : RawTramo) : String :=
  let name := pyStrip r.name
  let dist_raw := pyStrip r.dist
  let curr := pyStrip r.current
  let hist := pyStrip r.historic
  let clave_curr := if curr ≠ "" then curr else hist
  name ++ "||" ++ dist_raw ++ "||" ++ clave_curr

/-- The per-record body of TrafficDetector.detect_all (analyzer.py lines
522-568): strip the raw texts, classify from `section_flag` alone, parse
duration/speed/distance, and derive the duration from distance and speed
when no direct minutes value was parsed. -/
def normalizeRaw (r : RawTramo) : TramoNorm :=
  let name := pyStrip r.name
  let dist_raw := pyStrip r.dist
  let curr := pyStrip r.current
  let hist := pyStrip r.historic
  let flag := pyLower (pyStrip r.section_flag)
  let es_usual : Option Bool :=
    if flag = "unusual" then some false
    else if flag = "watch" then some true
    else none
  let mv_c := parse_stat_to_min_vel curr
  let mv_h := parse_stat_to_min_vel hist
  let minutos := if (mv_c.1).isSome then mv_c.1 else mv_h.1
  let vel := if (mv_c.2).isSome then mv_c.2 else mv_h.2
  let d_km := parse_dist_km dist_raw
  let ts :=
    match minutos with
    | some m => (some (m * 60), pad2 m ++ ":00")
    | none => tiempo_desde_dist_y_vel d_km vel
  let shown := pyStrip (if curr ≠ "" then curr else if hist ≠ "" then hist else "")
  let raw := name ++ " | " ++ shown ++ " | " ++ dist_raw ++ " | tiempo="
      ++ (if ts.2 = "" then "--:--" else ts.2)
  { nombre := name, dist_km := d_km, tiempo_min := minutos, tiempo_seg := ts.1,
    tiempo_mmss := ts.2, vel_kmh := vel, jam := r.jam, es_usual := es_usual,
    current_raw := curr, historic_raw := hist, dist_raw := dist_raw, raw := raw }

/-- The detect_all loop over the extracted raw records, with `vistos` the
set of dedup keys already seen: records with an empty (stripped) name are
dropped, later records with an already-seen key are dropped, every other
record is normalized and kept in capture order. -/
def detect_all_loop : List RawTramo → List String → List TramoNorm
  | [], _ => []
  | r :: rs, vistos =>
    if pyStrip r.name = "" then detect_all_loop rs vistos
    else if claveOf r ∈ vistos then detect_all_loop rs vistos
    else normalizeRaw r :: detect_all_loop rs (claveOf r :: vistos)

/-- TrafficDetector.detect_all restricted to its pure part: the
normalization, classification, and deduplication of the raw records
extracted from the page. -/
def detect_all (brut : List RawTramo) : List TramoNorm := detect_all_loop brut []

/-- models.nombre_hoja_seguro.  `hashAbs` stands for Python's
`abs(hash(nombre_original))`, an arbitrary natural number.  The function
strips the name, expands `:` to ` -` and `/` to ` /`, blanks every
character of the class `[:\\/*?\[\]]`, truncates to 27 characters and
always appends `_` plus three digits of `hashAbs % 1000`, truncating the
result to 31 characters. -/
def nombre_hoja_seguro (hashAbs : ℕ) (nombre_original : String) : String :=
  let b0 := pyStrip nombre_original
  let b1 : List Char := b0.data.flatMap (fun c => if c = ':' then [' ', '-'] else [c])
  let b2 : List Char := b1.flatMap (fun c => if c = '/' then [' ', '/'] else [c])
  let b3 : List Char := b2.map (fun c =>
    if c = ':' || c = '\\' || c = '/' || c = '*' || c = '?' || c = '[' || c = ']'
    then ' ' else c)
  let base : List Char := b3.take 27
  let suf : List Char := ('_' :: (pad3 (hashAbs % 1000)).data)
  ⟨(base ++ suf).take 31⟩

/-! ## The workbook model (openpyxl as used by storage.py) -/

/-- A cell value written by guardar_tramos: a string, an int, or a float. -/
inductive Cell where
  | strC (v : String)
  | intC (v : ℤ)
  | ratC (v : ℚ)
deriving Repr, DecidableEq

abbrev Row := List Cell

/-- A workbook: ordered list of (sheet title, rows).  Sheet titles are
unique in openpyxl; the model looks titles up by first occurrence. -/
abbrev Workbook := List (String × List Row)

def sheetNames (w : Workbook) : List String := w.map Prod.fst

def getSheet (w : Workbook) (n : String) : List Row :=
  match w.find? (fun p => p.1 == n) with
  | some p => p.2
  | none => []

def setSheet : Workbook → String → List Row → Workbook
  | [], _, _ => []
  | (m, rs) :: w, n, rows =>
    if m = n then (m, rows) :: w else (m, rs) :: setSheet w n rows

def appendRow (w : Workbook) (n : String) (row : Row) : Workbook :=
  setSheet w n (getSheet w n ++ [row])

/-- The header row written by storage._poner_encabezados. -/
def headerRow : Row :=
  [.strC "Fecha", .strC "Hora", .strC "Tramo", .strC "Tiempo (MM:SS)",
   .strC "Tiempo (s)", .strC "Velocidad (km/h)", .strC "Distancia (km)"]

/-- storage._poner_encabezados: writes the header when the sheet is still
empty (openpyxl: `max_row == 1` and every cell of row 1 is `None`). -/
def poner_encabezados (w : Workbook) (n : String) : Workbook :=
  if getSheet w n = [] then setSheet w n [headerRow] else w

/-- Sheet title of the Unusual-traffic sheet ("Tráfico inusual"). -/
def inusName : String := "Tráfico inusual"

/-- Sheet title of the Unknown sheet ("Desconocidos"). -/
def descName : String := "Desconocidos"

/-- Stable insertion of `x` into a list sorted ascending by `key` (after
any element of equal key), as `list.sort(key=...)` orders it. -/
def insertSorted (key : String → String) (x : String) : List String → List String
  | [] => [x]
  | y :: ys =>
    if pyStrLtb (key x) (key y) then x :: y :: ys else y :: insertSorted key x ys

/-- Python `list.sort(key=...)`: stable ascending sort. -/
def sortByKey (key : String → String) (l : List String) : List String :=
  l.foldl (fun acc x => insertSorted key x acc) []

/-- storage._ordenar_hojas_watchlist: ensure the Unusual sheet exists, then
reorder the workbook to `[Unusual] ++ (other sheets sorted by lowercase
title) ++ [Desconocidos if present]`. -/
def ordenar_hojas_watchlist (w : Workbook) : Workbook :=
  let w1 :=
    if inusName ∈ sheetNames w then w
    else poner_encabezados ((inusName, []) :: w) inusName
  let sheets := sheetNames w1
  let watchlist := sheets.filter (fun s => s != inusName && s != descName)
  let sorted := sortByKey pyLower watchlist
  let newOrder := inusName :: (sorted ++ (if descName ∈ sheets then [descName] else []))
  newOrder.map (fun n => (n, getSheet w1 n))

/-- storage._insertar_hoja_watchlist_en_posicion: create a watchlist sheet
with `title` (header included) at its alphabetical slot, keeping
Desconocidos last and Tráfico inusual first.  The `Bool` is `false` when
the source would raise `KeyError` at `wb["Tráfico inusual"]` (line 296)
because that sheet is missing — in that case the new sheet has already
been appended at the end and the reordering is abandoned. -/
def insertar_hoja_watchlist (title : String) (w : Workbook) : Workbook × Bool :=
  if title ∈ sheetNames w then (w, true)
  else
    let existing := (sheetNames w).filter (fun s => s != inusName && s != descName)
    let sorted := sortByKey pyLower (existing ++ [title])
    let target := 1 + sorted.indexOf title
    let wC := poner_encabezados (w ++ [(title, [])]) title
    let entry := (title, getSheet wC title)
    let cur1 := wC.filter (fun p => p.1 != title)
    let cur2 := cur1.take target ++ entry :: cur1.drop target
    let cur3 :=
      if descName ∈ sheetNames wC then
        (cur2.filter (fun p => p.1 != descName)) ++ [(descName, getSheet wC descName)]
      else cur2
    if inusName ∈ sheetNames wC then
      ((inusName, getSheet wC inusName) :: cur3.filter (fun p => p.1 != inusName), true)
    else (wC, false)

/-- The characters openpyxl refuses inside a string cell
(`ILLEGAL_CHARACTERS_RE`: control characters other than tab, newline and
carriage return); writing one raises `IllegalCharacterError`. -/
def illegalXmlChar (c : Char) : Bool :=
  c.toNat ≤ 0x08 || c.toNat = 0x0b || c.toNat = 0x0c
    || (0x0e ≤ c.toNat && c.toNat ≤ 0x1f)

def cellIllegal : Cell → Bool
  | .strC v => v.data.any illegalXmlChar
  | _ => false

/-- Openpyxl `ws.append(row)` raises `IllegalCharacterError` iff some string cell of
the row contains an illegal character. -/
def rowIllegal (r : Row) : Bool := r.any cellIllegal

/-- The 7-cell row guardar_tramos appends for one record: date and time
strings, stripped name, MM:SS text, seconds as int or `""`, speed and
distance as floats or `""`. -/
def rowOf (fecha hora : String) (t : TramoNorm) : Row :=
  [.strC fecha, .strC hora, .strC (pyStrip t.nombre), .strC t.tiempo_mmss,
   (match t.tiempo_seg with | some n => .intC n | none => .strC ""),
   (match t.vel_kmh with | some v => .ratC v | none => .strC ""),
   (match t.dist_km with | some d => .ratC d | none => .strC "")]

/-- One iteration of the guardar_tramos loop over `(workbook, guardados,
usuales, inusuales)`: route the record to its sheet by `es_usual`,
creating the sheet on demand; a row whose append raises
`IllegalCharacterError` (or whose sheet insertion raises) is skipped
without counting. -/
def guardar_paso (hashv : String → ℕ) (fecha hora : String)
    (acc : Workbook × ℕ × ℕ × ℕ) (t : TramoNorm) : Workbook × ℕ × ℕ × ℕ :=
  let w := acc.1
  let g := acc.2.1
  let u := acc.2.2.1
  let i := acc.2.2.2
  let nombre := pyStrip t.nombre
  let row := rowOf fecha hora t
  match t.es_usual with
  | some true =>
    let hoja := nombre_hoja_seguro (hashv nombre) nombre
    let wr := if hoja ∈ sheetNames w then (w, true) else insertar_hoja_watchlist hoja w
    if wr.2 = false then (wr.1, g, u, i)
    else
      let w2 := poner_encabezados wr.1 hoja
      if rowIllegal row then (w2, g, u, i)
      else (appendRow w2 hoja row, g + 1, u + 1, i)
  | some false =>
    if rowIllegal row then (w, g, u, i)
    else (appendRow w inusName row, g + 1, u, i + 1)
  | none =>
    let w1 :=
      if descName ∈ sheetNames w then w
      else poner_encabezados (w ++ [(descName, [])]) descName
    if rowIllegal row then (w1, g, u, i)
    else (appendRow w1 descName row, g + 1, u, i)

/-- Module-level state of storage.py: the global workbook handle and Excel
path, the WAL file and commit marker beside it, and the content of the
saved .xlsx file. -/
structure StorageState where
  wb : Option Workbook
  archivo_excel : Option String
  walExists : Bool
  walLines : List String
  markerExists : Bool
  savedFile : Option Workbook
deriving Repr, DecidableEq

/-- storage.safe_save_workbook: up to `intentos` atomic-save attempts with
a fixed sleep between them (`outcomes` gives each attempt's result);
succeeds at the first successful attempt, re-raises the last exception
when every attempt fails. -/
def safe_save_workbook (outcomes : List Bool) (intentos : ℕ) : Except Unit Unit :=
  if intentos = 0 then .ok ()
  else if (List.range intentos).any (fun k => outcomes.getD k false) then .ok ()
  else .error ()

/-- storage._wal_clear: delete the WAL file and the commit marker. -/
def wal_clear (st : StorageState) : StorageState :=
  { st with walExists := false, walLines := [], markerExists := false }

/-- storage._wal_write_transaction: write one serialized record per line
and fsync.  (Present in the source but never called by guardar_tramos.) -/
def wal_write_transaction (st : StorageState) (lines : List String) : StorageState :=
  { st with walExists := true, walLines := lines }

/-- storage._wal_mark_committed: create/refresh the commit marker.
(Present in the source but never called by guardar_tramos.) -/
def wal_mark_committed (st : StorageState) : StorageState :=
  { st with markerExists := true }

/-- storage.guardar_tramos: the persist operation.  Returns `(st, (0,0,0))`
when no workbook or path is registered; otherwise ensures the base
sheets, routes every record, reorders the sheets, and tries the save —
swallowing any save failure (`except Exception: pass`).  Note: it never
touches the WAL or the commit marker. -/
def guardar_tramos (hashv : String → ℕ) (fecha hora : String)
    (saveOutcomes : List Bool) (st : StorageState) (tramos : List TramoNorm) :
    StorageState × (ℕ × ℕ × ℕ) :=
  match st.wb with
  | none => (st, (0, 0, 0))
  | some w =>
    if st.archivo_excel.getD "" = "" then (st, (0, 0, 0))
    else
      let w0 := if inusName ∈ sheetNames w then w else (inusName, []) :: w
      let w0 := poner_encabezados w0 inusName
      let w0 := if descName ∈ sheetNames w0 then poner_encabezados w0 descName else w0
      let res := tramos.foldl (guardar_paso hashv fecha hora) (w0, 0, 0, 0)
      let w2 := ordenar_hojas_watchlist res.1
      let saved :=
        match safe_save_workbook saveOutcomes 5 with
        | .ok _ => some w2
        | .error _ => st.savedFile
      ({ st with wb := some w2, savedFile := saved }, (res.2.1, res.2.2.1, res.2.2.2))

/-- Python errors surfaced by the embedded storage module. -/
inductive PyErr where
  | typeError
deriving Repr, DecidableEq

/-- The parameter list of `def guardar_tramos(tramos)` in storage.py. -/
def guardarTramosParams : List String := ["tramos"]

/-- Python call protocol for the call site
`guardar_tramos(tramos, _skip_wal=True)` (storage.py line 110): a keyword
argument whose name is not a parameter of the callee raises `TypeError`
before the body runs. -/
def call_guardar_tramos_kwargs (kwargs : List String) (hashv : String → ℕ)
    (fecha hora : String) (saveOutcomes : List Bool) (st : StorageState)
    (tramos : List TramoNorm) : Except PyErr (StorageState × (ℕ × ℕ × ℕ)) :=
  if kwargs.all (fun k => guardarTramosParams.contains k) then
    .ok (guardar_tramos hashv fecha hora saveOutcomes st tramos)
  else .error .typeError

/-- storage.recover_from_wal.  `parseLine` models `json.loads` plus the
dict-to-record reading (a line that fails to parse is skipped).  When an
uncommitted WAL with records is found, the source calls
`guardar_tramos(tramos, _skip_wal=True)` inside `try/finally`: the call
raises `TypeError` (guardar_tramos accepts no `_skip_wal` keyword), the
`finally` still clears the WAL and the marker, and the error propagates. -/
def recover_from_wal (parseLine : String → Option TramoNorm) (hashv : String → ℕ)
    (fecha hora : String) (saveOutcomes : List Bool) (st : StorageState) :
    StorageState × Except PyErr Unit :=
  if st.archivo_excel.getD "" = "" then (st, .ok ())
  else if st.walExists = false then (st, .ok ())
  else if st.markerExists then (wal_clear st, .ok ())
  else
    let tramos := st.walLines.filterMap (fun l =>
      let ls := pyStrip l
      if ls = "" then none else parseLine ls)
    if tramos = [] then (wal_clear st, .ok ())
    else
      match call_guardar_tramos_kwargs ["_skip_wal"] hashv fecha hora saveOutcomes
          st tramos with
      | .ok res => (wal_clear res.1, .ok ())
      | .error e => (wal_clear st, .error e)

/-! ## Order facts about the lexicographic comparison and the stable sort -/

theorem charListLtb_asymm : ∀ {a b : List Char},
    charListLtb a b = true → charListLtb b a = false := by
  intro a
  induction a with
  | nil => intro b h; cases b <;> simp_all [charListLtb]
  | cons x xs ih =>
    intro b h
    cases b with
    | nil => simp [charListLtb] at h
    | cons y ys =>
      simp only [charListLtb] at h ⊢
      by_cases h1 : x.toNat < y.toNat
      · have h2 : ¬ y.toNat < x.toNat := by omega
        simp [h1, h2]
      · by_cases h2 : y.toNat < x.toNat
        · simp [h1, h2] at h
        · simp only [h1, h2, if_false] at h ⊢
          exact ih h

theorem charListLtb_trans : ∀ {a b c : List Char},
    charListLtb a b = true → charListLtb b c = true → charListLtb a c = true := by
  intro a
  induction a with
  | nil =>
    intro b c hab hbc
    cases b with
    | nil => simp [charListLtb] at hab
    | cons y ys =>
      cases c with
      | nil => simp [charListLtb] at hbc
      | cons z zs => simp [charListLtb]
  | cons x xs ih =>
    intro b c hab hbc
    cases b with
    | nil => simp [charListLtb] at hab
    | cons y ys =>
      cases c with
      | nil => simp [charListLtb] at hbc
      | cons z zs =>
        simp only [charListLtb] at hab hbc ⊢
        by_cases hxy : x.toNat < y.toNat
        · by_cases hyz : y.toNat < z.toNat
          · have : x.toNat < z.toNat := by omega
            simp [this]
          · by_cases hzy : z.toNat < y.toNat
            · simp [hyz, hzy] at hbc
            · have hyz2 : y.toNat = z.toNat := by omega
              have : x.toNat < z.toNat := by omega
              simp [this]
        · by_cases hyx : y.toNat < x.toNat
          · simp [hxy, hyx] at hab
          · have hxy2 : x.toNat = y.toNat := by omega
            by_cases hyz : y.toNat < z.toNat
            · have : x.toNat < z.toNat := by omega
              simp [this]
            · by_cases hzy : z.toNat < y.toNat
              · simp [hyz, hzy] at hbc
              · have h1 : ¬ x.toNat < z.toNat := by omega
                have h2 : ¬ z.toNat < x.toNat := by omega
                simp only [hxy, hyx, if_false] at hab
                simp only [hyz, hzy, if_false] at hbc
                simp only [h1, h2, if_false]
                exact ih hab hbc

/-- The sortedness relation guaranteed between consecutive sheets of the
watchlist block: the later title is not lexicographically below the
earlier one after lowercasing (Python ascending order, case-insensitive). -/
def watchLe (a b : String) : Prop := pyStrLtb (pyLower b) (pyLower a) = false

theorem watchLe_of_ltb {a b : String} (h : pyStrLtb (pyLower a) (pyLower b) = true) :
    watchLe a b := charListLtb_asymm h

theorem watchLe_of_not_ltb {a b : String} (h : pyStrLtb (pyLower a) (pyLower b) = false) :
    watchLe b a := h

theorem pyStrLtb_asymm {a b : String} (h : pyStrLtb a b = true) : pyStrLtb b a = false :=
  charListLtb_asymm h

theorem pyStrLtb_trans {a b c : String} (h1 : pyStrLtb a b = true)
    (h2 : pyStrLtb b c = true) : pyStrLtb a c = true :=
  charListLtb_trans h1 h2

theorem mem_insertSorted {key : String → String} {x a : String} :
    ∀ {l : List String}, a ∈ insertSorted key x l ↔ a = x ∨ a ∈ l := by
  intro l
  induction l with
  | nil => simp [insertSorted]
  | cons y ys ih =>
    cases h : pyStrLtb (key x) (key y) with
    | true => simp [insertSorted, h]
    | false =>
      simp only [insertSorted, h, Bool.false_eq_true, if_false, List.mem_cons, ih]
      tauto

theorem pairwise_insertSorted {x : String} :
    ∀ {l : List String},
    l.Pairwise (fun a b => pyStrLtb (pyLower b) (pyLower a) = false) →
    (insertSorted pyLower x l).Pairwise
      (fun a b => pyStrLtb (pyLower b) (pyLower a) = false) := by
  intro l
  induction l with
  | nil => intro _; simp [insertSorted]
  | cons y ys ih =>
    intro hp
    rcases List.pairwise_cons.mp hp with ⟨hy, hys⟩
    cases h : pyStrLtb (pyLower x) (pyLower y) with
    | true =>
      simp only [insertSorted, h, if_true]
      refine List.pairwise_cons.mpr ⟨?_, hp⟩
      intro z hz
      rcases List.mem_cons.mp hz with rfl | hz2
      · exact pyStrLtb_asymm h
      · have hyz := hy z hz2
        cases hzx : pyStrLtb (pyLower z) (pyLower x) with
        | false => rfl
        | true =>
          have hzy := pyStrLtb_trans hzx h
          rw [hyz] at hzy
          exact Bool.noConfusion hzy
    | false =>
      simp only [insertSorted, h, Bool.false_eq_true, if_false]
      refine List.pairwise_cons.mpr ⟨?_, ih hys⟩
      intro z hz
      rcases mem_insertSorted.mp hz with rfl | hz2
      · exact h
      · exact hy z hz2

theorem pairwise_sortByKey_aux :
    ∀ (l acc : List String),
    acc.Pairwise (fun a b => pyStrLtb (pyLower b) (pyLower a) = false) →
    (l.foldl (fun acc x => insertSorted pyLower x acc) acc).Pairwise
      (fun a b => pyStrLtb (pyLower b) (pyLower a) = false) := by
  intro l
  induction l with
  | nil => intro acc h; exact h
  | cons x xs ih =>
    intro acc h
    exact ih (insertSorted pyLower x acc) (pairwise_insertSorted h)

theorem pairwise_sortByKey (l : List String) :
    (sortByKey pyLower l).Pairwise watchLe :=
  pairwise_sortByKey_aux l [] (by simp)

theorem mem_sortByKey_aux {a : String} :
    ∀ (l acc : List String),
    (a ∈ l.foldl (fun acc x => insertSorted pyLower x acc) acc) ↔ a ∈ acc ∨ a ∈ l := by
  intro l
  induction l with
  | nil => intro acc; simp
  | cons x xs ih =>
    intro acc
    rw [List.foldl_cons, ih (insertSorted pyLower x acc)]
    rw [mem_insertSorted]
    simp only [List.mem_cons]
    tauto

theorem mem_sortByKey {a : String} {l : List String} :
    a ∈ sortByKey pyLower l ↔ a ∈ l := by
  rw [sortByKey, mem_sortByKey_aux]
  simp

/-! ## The sheet-ordering invariant -/

/-- The global sheet-order invariant of the Store: the Unusual sheet
("Tráfico inusual") first, then the watchlist sheets sorted ascending,
case-insensitively, then — exactly when present — "Desconocidos" last. -/
def ordenInvariant (ns : List String) : Prop :=
  ∃ mid tl, ns = inusName :: (mid ++ tl) ∧ (tl = [] ∨ tl = [descName])
    ∧ inusName ∉ mid ∧ descName ∉ mid ∧ mid.Pairwise watchLe

theorem sheetNames_map_pair (f : String → List Row) (ns : List String) :
    sheetNames (ns.map (fun n => (n, f n))) = ns := by
  induction ns with
  | nil => rfl
  | cons n ns ih =>
    simp only [sheetNames, List.map_cons, List.map_map] at ih ⊢
    rw [ih]

theorem ordenar_names (w : Workbook) :
    sheetNames (ordenar_hojas_watchlist w)
      = inusName :: (sortByKey pyLower
          ((sheetNames (if inusName ∈ sheetNames w then w
              else poner_encabezados ((inusName, []) :: w) inusName)).filter
            (fun s => s != inusName && s != descName))
        ++ (if descName ∈ sheetNames (if inusName ∈ sheetNames w then w
              else poner_encabezados ((inusName, []) :: w) inusName)
            then [descName] else [])) := by
  unfold ordenar_hojas_watchlist
  rw [sheetNames_map_pair]

theorem ordenar_invariant (w : Workbook) :
    ordenInvariant (sheetNames (ordenar_hojas_watchlist w)) := by
  rw [ordenar_names]
  refine ⟨_, _, rfl, ?_, ?_, ?_, pairwise_sortByKey _⟩
  · by_cases h : descName ∈ sheetNames (if inusName ∈ sheetNames w then w
        else poner_encabezados ((inusName, []) :: w) inusName) <;> simp [h]
  · intro hmem
    have h2 := mem_sortByKey.mp hmem
    have h3 := List.of_mem_filter h2
    simp at h3
  · intro hmem
    have h2 := mem_sortByKey.mp hmem
    have h3 := List.of_mem_filter h2
    simp at h3

/-! ## Concrete fixtures used by the claim theorems -/

/-- A usual (watchlist) record as the pipeline would produce it. -/
def tramoAveX : TramoNorm :=
  { nombre := "Ave X", dist_km := some (9 / 2), tiempo_min := some 12,
    tiempo_seg := some 720, tiempo_mmss := "12:00", vel_kmh := none, jam := none,
    es_usual := some true, current_raw := "12 min", historic_raw := "",
    dist_raw := "4.5 km", raw := "Ave X | 12 min | 4.5 km | tiempo=12:00" }

/-- A record with no classification hint (Unknown category). -/
def tramoDesconocido : TramoNorm :=
  { nombre := "Calle Sur", dist_km := none, tiempo_min := none, tiempo_seg := none,
    tiempo_mmss := "", vel_kmh := none, jam := none, es_usual := none }

/-- A fresh storage state: workbook open with just the Unusual sheet,
path registered, no WAL, no marker, nothing saved yet. -/
def freshState : StorageState :=
  { wb := some [(inusName, [headerRow])], archivo_excel := some "Captura_Waze.xlsx",
    walExists := false, walLines := [], markerExists := false, savedFile := none }

/-- State after a crash between WAL write and commit: the WAL holds one
serialized record, no marker exists. -/
def crashedState : StorageState := { freshState with walExists := true, walLines := ["rec1"] }

/-- A json.loads model for `crashedState`: its single WAL line parses to
`tramoAveX`. -/
def parseRec1 : String → Option TramoNorm :=
  fun l => if l = "rec1" then some tramoAveX else none

/-- C1.  The claim says recovery from a WAL-logged, uncommitted transaction
reapplies the logged records and leaves the Store as an uninterrupted
transaction would.  In the code, `recover_from_wal` calls
`guardar_tramos(tramos, _skip_wal=True)` (storage.py line 110) while
`guardar_tramos` (line 302) accepts no `_skip_wal` parameter: the call
raises `TypeError` before applying anything, the `finally` deletes the WAL
and marker, and the error propagates.  This theorem evaluates recovery at
the claim's failing input: the workbook is untouched, the WAL is gone, the
error escapes — and the store differs from the one an uninterrupted
transaction over the same batch produces. -/
theorem C1_recover_raises_and_discards_wal :
    recover_from_wal parseRec1 (fun _ => 0) "01/01/2026" "12:00:00" [true] crashedState
      = (wal_clear crashedState, .error .typeError)
    ∧ (wal_clear crashedState).wb = crashedState.wb
    ∧ (wal_clear crashedState).walExists = false
    ∧ (wal_clear crashedState).markerExists = false
    ∧ (wal_clear crashedState).wb
        ≠ (guardar_tramos (fun _ => 0) "01/01/2026" "12:00:00" [true]
            (wal_clear crashedState) [tramoAveX]).1.wb := by
  refine ⟨rfl, rfl, rfl, rfl, by decide⟩

/-- C2.  The claim says every persistence transaction serializes the batch
to the WAL (flushed) before applying it to the Store, and writes the
commit marker only after the save — `Empty → Logged → Committed → Empty`.
In the code, `guardar_tramos` never calls `_wal_write_transaction` or
`_wal_mark_committed`: the first conjunct shows the WAL file, its
contents, and the marker are bit-for-bit unchanged by any persist call; the
second runs a transaction from a WAL-less state and shows records reach the
Store and the saved file while the WAL still does not exist — the state
machine jumps `Empty → Empty` without ever being `Logged`. -/
theorem C2_persist_never_logs_wal :
    (∀ (hashv : String → ℕ) (fecha hora : String) (outs : List Bool)
        (st : StorageState) (tramos : List TramoNorm),
      ((guardar_tramos hashv fecha hora outs st tramos).1.walExists = st.walExists)
      ∧ ((guardar_tramos hashv fecha hora outs st tramos).1.walLines = st.walLines)
      ∧ ((guardar_tramos hashv fecha hora outs st tramos).1.markerExists = st.markerExists))
    ∧ ((guardar_tramos (fun _ => 0) "01/01/2026" "12:00:00" [true]
          freshState [tramoAveX]).2 = (1, 1, 0)
      ∧ (guardar_tramos (fun _ => 0) "01/01/2026" "12:00:00" [true]
          freshState [tramoAveX]).1.walExists = false
      ∧ (guardar_tramos (fun _ => 0) "01/01/2026" "12:00:00" [true]
          freshState [tramoAveX]).1.markerExists = false
      ∧ (guardar_tramos (fun _ => 0) "01/01/2026" "12:00:00" [true]
          freshState [tramoAveX]).1.savedFile ≠ none
      ∧ (guardar_tramos (fun _ => 0) "01/01/2026" "12:00:00" [true]
          freshState [tramoAveX]).1.wb ≠ freshState.wb) := by
  constructor
  · intro hashv fecha hora outs st tramos
    unfold guardar_tramos
    cases h : st.wb with
    | none => exact ⟨rfl, rfl, rfl⟩
    | some w =>
      by_cases h2 : st.archivo_excel.getD "" = "" <;> simp [h2]
  · exact ⟨by decide, by decide, by decide, by decide, by decide⟩

/-- C3.  The claim says that when the atomic save fails on all bounded
retries, the failure is surfaced to the caller of the persist operation
and the WAL remains present and uncommitted for replay.  In the code
`safe_save_workbook` does re-raise after its 5 attempts (first conjunct),
but `guardar_tramos` wraps the save in `except Exception: pass` (storage.py
lines 399-403): with every attempt failing it still returns the normal
counts, nothing was saved, and no WAL file exists for recovery to replay. -/
theorem C3_save_failure_swallowed_no_wal :
    safe_save_workbook (List.replicate 5 false) 5 = .error ()
    ∧ (guardar_tramos (fun _ => 0) "01/01/2026" "12:00:00"
        (List.replicate 5 false) freshState [tramoAveX]).2 = (1, 1, 0)
    ∧ (guardar_tramos (fun _ => 0) "01/01/2026" "12:00:00"
        (List.replicate 5 false) freshState [tramoAveX]).1.savedFile = none
    ∧ (guardar_tramos (fun _ => 0) "01/01/2026" "12:00:00"
        (List.replicate 5 false) freshState [tramoAveX]).1.walExists = false := by
  refine ⟨rfl, by decide, by decide, by decide⟩

/-- C9.  Recovery is a no-op when no WAL file exists, and when both the WAL
and the commit marker exist it deletes both without touching the workbook
or the saved file (no reapplication, no duplicate rows). -/
theorem C9_recover_committed_or_absent_wal :
    (∀ (parseLine : String → Option TramoNorm) (hashv : String → ℕ)
        (fecha hora : String) (outs : List Bool) (st : StorageState),
      st.walExists = false →
      recover_from_wal parseLine hashv fecha hora outs st = (st, .ok ()))
    ∧ (∀ (parseLine : String → Option TramoNorm) (hashv : String → ℕ)
        (fecha hora : String) (outs : List Bool) (st : StorageState) (p : String),
      st.archivo_excel = some p → p ≠ "" → st.walExists = true → st.markerExists = true →
      recover_from_wal parseLine hashv fecha hora outs st = (wal_clear st, .ok ())
      ∧ (wal_clear st).wb = st.wb
      ∧ (wal_clear st).savedFile = st.savedFile
      ∧ (wal_clear st).walExists = false
      ∧ (wal_clear st).markerExists = false) := by
  constructor
  · intro parseLine hashv fecha hora outs st h
    unfold recover_from_wal
    by_cases h2 : st.archivo_excel.getD "" = "" <;> simp [h2, h]
  · intro parseLine hashv fecha hora outs st p hp hpne hw hm
    have h2 : st.archivo_excel.getD "" ≠ "" := by simp [hp, hpne]
    refine ⟨?_, rfl, rfl, rfl, rfl⟩
    unfold recover_from_wal
    simp [h2, hw, hm]

/-- Witness for C9: both parts applied at concrete states. -/
theorem C9_recover_committed_or_absent_wal_witness :
    recover_from_wal parseRec1 (fun _ => 0) "f" "h" [] freshState = (freshState, .ok ())
    ∧ recover_from_wal parseRec1 (fun _ => 0) "f" "h" []
        { crashedState with markerExists := true }
      = (wal_clear { crashedState with markerExists := true }, .ok ()) :=
  ⟨C9_recover_committed_or_absent_wal.1 parseRec1 (fun _ => 0) "f" "h" [] freshState rfl,
   (C9_recover_committed_or_absent_wal.2 parseRec1 (fun _ => 0) "f" "h" []
      { crashedState with markerExists := true } "Captura_Waze.xlsx" rfl (by decide)
      rfl rfl).1⟩

/-- The spec's ordering scenario built from the cited source operations:
starting from a workbook holding only the Unusual sheet, insert watchlist
sheets titled "Z-Ave", "a-Blvd" and "Main St" through
`_insertar_hoja_watchlist_en_posicion`, append one Unusual row, create and
fill the "Desconocidos" sheet for one Unknown record (what the
`es_usual is None` branch of guardar_tramos does). -/
def scenarioWb : Workbook :=
  let w1 := (insertar_hoja_watchlist "Z-Ave" [(inusName, [headerRow])]).1
  let w2 := (insertar_hoja_watchlist "a-Blvd" w1).1
  let w3 := (insertar_hoja_watchlist "Main St" w2).1
  let w4 := appendRow w3 inusName (rowOf "01/01/2026" "12:00:00" tramoAveX)
  let w5 := poner_encabezados (w4 ++ [(descName, [])]) descName
  appendRow w5 descName (rowOf "01/01/2026" "12:00:00" tramoDesconocido)

/-- C6.  The global sheet-order invariant: after every persist call on a
registered workbook, the Unusual sheet is first, the watchlist sheets
follow sorted case-insensitively ascending, and "Desconocidos", exactly
when present, is last; and the spec's concrete scenario (watchlist sheets
"Z-Ave", "a-Blvd", "Main St" plus one Unusual and one Unknown record)
ends, after the reorder that closes every write, in the order
[Unusual, a-Blvd, Main St, Z-Ave, Unknown]. -/
theorem C6_sheet_order_invariant :
    (∀ (hashv : String → ℕ) (fecha hora : String) (outs : List Bool)
        (st : StorageState) (tramos : List TramoNorm) (w : Workbook),
      st.wb = some w → st.archivo_excel.getD "" ≠ "" →
      ordenInvariant (sheetNames
        ((guardar_tramos hashv fecha hora outs st tramos).1.wb.getD [])))
    ∧ sheetNames (ordenar_hojas_watchlist scenarioWb)
        = [inusName, "a-Blvd", "Main St", "Z-Ave", descName] := by
  constructor
  · intro hashv fecha hora outs st tramos w hw ha
    unfold guardar_tramos
    rw [hw]
    simp only [ha, if_false]
    cases hs : safe_save_workbook outs 5 <;>
      simpa using ordenar_invariant _
  · decide

/-- Witness for C6: the invariant applied to a run of guardar_tramos over
the fresh state and the scenario's records. -/
theorem C6_sheet_order_invariant_witness :
    ordenInvariant (sheetNames
      ((guardar_tramos (fun _ => 0) "01/01/2026" "12:00:00" [true] freshState
        [tramoAveX, tramoDesconocido]).1.wb.getD [])) :=
  C6_sheet_order_invariant.1 (fun _ => 0) "01/01/2026" "12:00:00" [true] freshState
    [tramoAveX, tramoDesconocido] [(inusName, [headerRow])] rfl (by decide)

/-- The duration invariants of one normalized record (spec section 3): a
known minutes value forces `tiempo_seg = minutos * 60` and
`tiempo_mmss = "MM:00"`; otherwise the fields are derived from distance and
speed when both are present and the speed is positive, and are unset
(`none` / `""`) when either is missing or the speed is nonpositive. -/
def durationInvariant (t : TramoNorm) : Prop :=
  (∀ m : ℤ, t.tiempo_min = some m →
    t.tiempo_seg = some (m * 60) ∧ t.tiempo_mmss = pad2 m ++ ":00")
  ∧ (t.tiempo_min = none →
      (∀ d v : ℚ, t.dist_km = some d → t.vel_kmh = some v → 0 < v →
        t.tiempo_seg = some (pyRound (d / v * 3600))
        ∧ t.tiempo_mmss = pad2 (Int.fdiv (pyRound (d / v * 3600)) 60) ++ ":"
            ++ pad2 (Int.fmod (pyRound (d / v * 3600)) 60))
      ∧ ((t.dist_km = none ∨ t.vel_kmh = none
            ∨ ∃ v : ℚ, t.vel_kmh = some v ∧ v ≤ 0) →
        t.tiempo_seg = none ∧ t.tiempo_mmss = ""))

theorem durationInvariant_core (minutos : Option ℤ) (d v : Option ℚ)
    (t : TramoNorm)
    (h : (t.tiempo_seg, t.tiempo_mmss)
      = match minutos with
        | some m => (some (m * 60), pad2 m ++ ":00")
        | none => tiempo_desde_dist_y_vel d v)
    (ht1 : t.tiempo_min = minutos) (ht4 : t.dist_km = d) (ht5 : t.vel_kmh = v) :
    durationInvariant t := by
  cases minutos with
  | some m =>
    simp only at h
    constructor
    · intro m2 hm2
      rw [ht1] at hm2
      cases hm2
      exact ⟨congrArg Prod.fst h, congrArg Prod.snd h⟩
    · intro hnone
      rw [ht1] at hnone
      exact absurd hnone (by simp)
  | none =>
    constructor
    · intro m2 hm2
      rw [ht1] at hm2
      exact absurd hm2 (by simp)
    · intro _
      cases d with
      | none =>
        simp only [tiempo_desde_dist_y_vel] at h
        constructor
        · intro d2 v2 hd2
          rw [ht4] at hd2
          exact absurd hd2 (by simp)
        · intro _
          exact ⟨congrArg Prod.fst h, congrArg Prod.snd h⟩
      | some dd =>
        cases v with
        | none =>
          simp only [tiempo_desde_dist_y_vel] at h
          constructor
          · intro d2 v2 _ hv2
            rw [ht5] at hv2
            exact absurd hv2 (by simp)
          · intro _
            exact ⟨congrArg Prod.fst h, congrArg Prod.snd h⟩
        | some vv =>
          simp only [tiempo_desde_dist_y_vel] at h
          by_cases hle : vv ≤ 0
          · rw [if_pos hle] at h
            constructor
            · intro d2 v2 hd2 hv2 hpos
              rw [ht5] at hv2
              cases hv2
              exact absurd hpos (by simpa using hle)
            · intro _
              exact ⟨congrArg Prod.fst h, congrArg Prod.snd h⟩
          · rw [if_neg hle] at h
            constructor
            · intro d2 v2 hd2 hv2 _
              rw [ht4] at hd2
              rw [ht5] at hv2
              cases hd2
              cases hv2
              exact ⟨congrArg Prod.fst h, congrArg Prod.snd h⟩
            · intro hbad
              rcases hbad with hbad | hbad | ⟨v2, hv2, hv2le⟩
              · rw [ht4] at hbad; exact absurd hbad (by simp)
              · rw [ht5] at hbad; exact absurd hbad (by simp)
              · rw [ht5] at hv2
                cases hv2
                exact absurd hv2le hle

theorem durationInvariant_normalizeRaw (r : RawTramo) :
    durationInvariant (normalizeRaw r) :=
  durationInvariant_core (normalizeRaw r).tiempo_min (normalizeRaw r).dist_km
    (normalizeRaw r).vel_kmh (normalizeRaw r) rfl rfl rfl rfl

theorem mem_detect_all_loop :
    ∀ (rs : List RawTramo) (vistos : List String) (t : TramoNorm),
    t ∈ detect_all_loop rs vistos → ∃ r ∈ rs, t = normalizeRaw r := by
  intro rs
  induction rs with
  | nil => intro vistos t h; simp [detect_all_loop] at h
  | cons r rs ih =>
    intro vistos t h
    simp only [detect_all_loop] at h
    by_cases h1 : pyStrip r.name = ""
    · rw [if_pos h1] at h
      rcases ih vistos t h with ⟨r2, hr2, ht⟩
      exact ⟨r2, List.mem_cons_of_mem r hr2, ht⟩
    · rw [if_neg h1] at h
      by_cases h2 : claveOf r ∈ vistos
      · rw [if_pos h2] at h
        rcases ih vistos t h with ⟨r2, hr2, ht⟩
        exact ⟨r2, List.mem_cons_of_mem r hr2, ht⟩
      · rw [if_neg h2] at h
        rcases List.mem_cons.mp h with rfl | h3
        · exact ⟨r, List.mem_cons_self r rs, rfl⟩
        · rcases ih _ t h3 with ⟨r2, hr2, ht⟩
          exact ⟨r2, List.mem_cons_of_mem r hr2, ht⟩

/-- C7.  Every record the pipeline produces satisfies the duration
invariants: direct minutes dominate (`seg = min*60`, `mmss = "MM:00"`),
otherwise seconds come from `round(dist/speed*3600)` when the speed is
positive, and both derived fields stay unset when an input is missing or
the speed is nonpositive. -/
theorem C7_duration_invariants (brut : List RawTramo) (t : TramoNorm)
    (h : t ∈ detect_all brut) : durationInvariant t := by
  rcases mem_detect_all_loop brut [] t h with ⟨r, _, rfl⟩
  exact durationInvariant_normalizeRaw r

/-- Witness for C7: the invariant holds of the record normalized from the
"Ave X" raw input. -/
theorem C7_duration_invariants_witness :
    durationInvariant (normalizeRaw
      { name := "Ave X", current := "12 min", historic := "", dist := "4.5 km",
        jam := none, section_flag := "watch" }) :=
  C7_duration_invariants
    [{ name := "Ave X", current := "12 min", historic := "", dist := "4.5 km",
       jam := none, section_flag := "watch" }] _ (by
      have h : detect_all
          [{ name := "Ave X", current := "12 min", historic := "", dist := "4.5 km",
             jam := none, section_flag := "watch" : RawTramo }]
          = [normalizeRaw
              { name := "Ave X", current := "12 min", historic := "", dist := "4.5 km",
                jam := none, section_flag := "watch" }] := rfl
      rw [h]
      exact List.mem_singleton_self _)

/-- The identity key of a normalized record, reconstructed from the raw
echoes it stores: `name || dist_raw || (current_raw or historic_raw)`. -/
def claveOfNorm (t : TramoNorm) : String :=
  t.nombre ++ "||" ++ t.dist_raw ++ "||"
    ++ (if t.current_raw ≠ "" then t.current_raw else t.historic_raw)

theorem claveOfNorm_normalizeRaw (r : RawTramo) :
    claveOfNorm (normalizeRaw r) = claveOf r := rfl

theorem countP_detect_all_loop (k : String) :
    ∀ (rs : List RawTramo) (vistos : List String),
    (detect_all_loop rs vistos).countP (fun t => claveOfNorm t == k)
      = if k ∈ vistos then 0
        else if rs.any (fun r => (pyStrip r.name != "") && (claveOf r == k))
        then 1 else 0 := by
  intro rs
  induction rs with
  | nil =>
    intro vistos
    by_cases h : k ∈ vistos <;> simp [detect_all_loop, h]
  | cons r rs ih =>
    intro vistos
    simp only [detect_all_loop]
    by_cases h1 : pyStrip r.name = ""
    · rw [if_pos h1, ih vistos]
      have hb : (pyStrip r.name != "") = false := by simp [h1]
      simp [List.any_cons, hb]
    · rw [if_neg h1]
      have hb : (pyStrip r.name != "") = true := by simp [h1]
      by_cases h2 : claveOf r ∈ vistos
      · rw [if_pos h2, ih vistos]
        by_cases h3 : k ∈ vistos
        · simp [h3]
        · have h4 : (claveOf r == k) = false := by
            rw [beq_eq_false_iff_ne]
            intro he; rw [he] at h2; exact h3 h2
          simp [h3, List.any_cons, h4, hb]
      · rw [if_neg h2, List.countP_cons, ih (claveOf r :: vistos)]
        by_cases h3 : k = claveOf r
        · subst h3
          simp [h2, List.any_cons, hb, claveOfNorm_normalizeRaw]
        · have h4 : (claveOf r == k) = false := by
            rw [beq_eq_false_iff_ne]; exact fun he => h3 he.symm
          have h5 : (claveOfNorm (normalizeRaw r) == k) = false := by
            rw [claveOfNorm_normalizeRaw]; exact h4
          by_cases h7 : k ∈ vistos
          · simp [h7, h5, List.mem_cons]
          · simp [h7, h5, h4, h3, hb, List.any_cons, List.mem_cons]

theorem find_detect_all_loop (k : String) :
    ∀ (rs : List RawTramo) (vistos : List String), k ∉ vistos →
    (detect_all_loop rs vistos).find? (fun t => claveOfNorm t == k)
      = (rs.find? (fun r => (pyStrip r.name != "") && (claveOf r == k))).map
          normalizeRaw := by
  intro rs
  induction rs with
  | nil => intro vistos _; simp [detect_all_loop]
  | cons r rs ih =>
    intro vistos hk
    simp only [detect_all_loop]
    by_cases h1 : pyStrip r.name = ""
    · rw [if_pos h1, ih vistos hk]
      have hb : ((pyStrip r.name != "") && (claveOf r == k)) = false := by simp [h1]
      rw [List.find?_cons_of_neg _ (by simp [hb])]
    · rw [if_neg h1]
      have hb : (pyStrip r.name != "") = true := by simp [h1]
      by_cases h2 : claveOf r ∈ vistos
      · rw [if_pos h2, ih vistos hk]
        have h4 : (claveOf r == k) = false := by
          rw [beq_eq_false_iff_ne]
          intro he; rw [he] at h2; exact hk h2
        rw [List.find?_cons_of_neg _ (by simp [h4])]
      · rw [if_neg h2]
        by_cases h3 : k = claveOf r
        · subst h3
          have h5 : (claveOfNorm (normalizeRaw r) == claveOf r) = true := by
            rw [claveOfNorm_normalizeRaw]; exact beq_self_eq_true _
          rw [@List.find?_cons_of_pos _ (fun t => claveOfNorm t == claveOf r)
              (normalizeRaw r) _ h5,
            @List.find?_cons_of_pos _
              (fun r2 => (pyStrip r2.name != "") && (claveOf r2 == claveOf r)) r _
              (by simp [hb])]
          rfl
        · have h4 : (claveOf r == k) = false := by
            rw [beq_eq_false_iff_ne]; exact fun he => h3 he.symm
          have h5 : (claveOfNorm (normalizeRaw r) == k) = false := by
            rw [claveOfNorm_normalizeRaw]; exact h4
          have hk2 : k ∉ claveOf r :: vistos := by
            intro hmem
            rcases List.mem_cons.mp hmem with he | he
            · exact h3 he
            · exact hk he
          rw [List.find?_cons_of_neg _ (by simp [h5]), ih _ hk2,
            List.find?_cons_of_neg _ (by simp [h4])]

theorem detect_all_loop_sublist :
    ∀ (rs : List RawTramo) (vistos : List String),
    (detect_all_loop rs vistos).Sublist
      ((rs.filter (fun r => pyStrip r.name != "")).map normalizeRaw) := by
  intro rs
  induction rs with
  | nil => intro vistos; simp [detect_all_loop]
  | cons r rs ih =>
    intro vistos
    simp only [detect_all_loop]
    by_cases h1 : pyStrip r.name = ""
    · rw [if_pos h1, List.filter_cons_of_neg (by simp [h1])]
      exact ih vistos
    · rw [if_neg h1, List.filter_cons_of_pos (by simp [h1]), List.map_cons]
      by_cases h2 : claveOf r ∈ vistos
      · rw [if_pos h2]
        exact (ih vistos).cons (normalizeRaw r)
      · rw [if_neg h2]
        exact (ih (claveOf r :: vistos)).cons₂ (normalizeRaw r)

/-- C8.  Deduplication within one capture batch: whenever some raw record
with a nonempty name carries the identity key `k`, the pipeline output
holds exactly one record with key `k`; that record is the normalization of
the first such raw record in capture order; and the whole output is a
sublist of the normalized kept-name input — the surviving records keep
their relative capture order. -/
theorem C8_dedup_first_kept (brut : List RawTramo) (k : String)
    (h : ∃ r ∈ brut, pyStrip r.name ≠ "" ∧ claveOf r = k) :
    (detect_all brut).countP (fun t => claveOfNorm t == k) = 1
    ∧ (detect_all brut).find? (fun t => claveOfNorm t == k)
        = (brut.find? (fun r => (pyStrip r.name != "") && (claveOf r == k))).map
            normalizeRaw
    ∧ (detect_all brut).Sublist
        ((brut.filter (fun r => pyStrip r.name != "")).map normalizeRaw) := by
  refine ⟨?_, ?_, ?_⟩
  · rw [detect_all, countP_detect_all_loop]
    have hany : brut.any (fun r => (pyStrip r.name != "") && (claveOf r == k)) = true := by
      rw [List.any_eq_true]
      rcases h with ⟨r, hr, hn, hc⟩
      exact ⟨r, hr, by simp [hn, hc]⟩
    simp [hany]
  · exact find_detect_all_loop k brut [] (List.not_mem_nil k)
  · exact detect_all_loop_sublist brut []

/-- The duplicated raw record of the spec's dedup scenario. -/
def rawAveX : RawTramo :=
  { name := "Ave X", current := "12 min", historic := "", dist := "4.5 km",
    jam := none, section_flag := "watch" }

/-- Witness for C8: the dedup contract at the spec's two-identical-records
batch. -/
theorem C8_dedup_first_kept_witness :
    (detect_all [rawAveX, rawAveX]).countP
        (fun t => claveOfNorm t == claveOf rawAveX) = 1
    ∧ (detect_all [rawAveX, rawAveX]).find?
        (fun t => claveOfNorm t == claveOf rawAveX)
        = ([rawAveX, rawAveX].find?
            (fun r => (pyStrip r.name != "") && (claveOf r == claveOf rawAveX))).map
            normalizeRaw
    ∧ (detect_all [rawAveX, rawAveX]).Sublist
        (([rawAveX, rawAveX].filter (fun r => pyStrip r.name != "")).map
          normalizeRaw) :=
  C8_dedup_first_kept [rawAveX, rawAveX] (claveOf rawAveX)
    ⟨rawAveX, List.mem_cons_self rawAveX [rawAveX], by decide, rfl⟩

/-! ## Counting lemmas for guardar_tramos (claim C10) -/

/-- A record whose row can be appended without `IllegalCharacterError`. -/
def savableB (fecha hora : String) (t : TramoNorm) : Bool :=
  !rowIllegal (rowOf fecha hora t)

theorem sheetNames_setSheet (n : String) (rows : List Row) :
    ∀ (w : Workbook), sheetNames (setSheet w n rows) = sheetNames w := by
  intro w
  induction w with
  | nil => rfl
  | cons p w ih =>
    rcases p with ⟨m, rs⟩
    by_cases h : m = n
    · simp [setSheet, h, sheetNames]
    · simp only [setSheet, h, if_false, sheetNames, List.map_cons]
      simpa [sheetNames] using ih

theorem sheetNames_appendRow (w : Workbook) (n : String) (row : Row) :
    sheetNames (appendRow w n row) = sheetNames w :=
  sheetNames_setSheet n _ w

theorem sheetNames_poner (w : Workbook) (n : String) :
    sheetNames (poner_encabezados w n) = sheetNames w := by
  unfold poner_encabezados
  by_cases h : getSheet w n = []
  · rw [if_pos h]; exact sheetNames_setSheet n _ w
  · rw [if_neg h]

theorem inus_mem_insertar (title : String) (w : Workbook)
    (h : inusName ∈ sheetNames w) :
    (insertar_hoja_watchlist title w).2 = true
    ∧ inusName ∈ sheetNames (insertar_hoja_watchlist title w).1 := by
  unfold insertar_hoja_watchlist
  by_cases h1 : title ∈ sheetNames w
  · rw [if_pos h1]; exact ⟨rfl, h⟩
  · rw [if_neg h1]
    have h2 : inusName ∈ sheetNames (poner_encabezados (w ++ [(title, [])]) title) := by
      rw [sheetNames_poner]
      simp only [sheetNames, List.map_append]
      exact List.mem_append_left _ h
    simp only [h2, if_true]
    exact ⟨by simp, by simp [sheetNames]⟩

theorem inus_mem_paso (hashv : String → ℕ) (fecha hora : String)
    (acc : Workbook × ℕ × ℕ × ℕ) (t : TramoNorm)
    (h : inusName ∈ sheetNames acc.1) :
    inusName ∈ sheetNames (guardar_paso hashv fecha hora acc t).1 := by
  unfold guardar_paso
  rcases t.es_usual with _ | b
  · simp only
    by_cases hd : descName ∈ sheetNames acc.1
    · rw [if_pos hd]
      by_cases hi : rowIllegal (rowOf fecha hora t)
      · simpa [hi] using h
      · simp only [hi, Bool.false_eq_true, if_false]
        rw [sheetNames_appendRow]; exact h
    · rw [if_neg hd]
      have h2 : inusName ∈ sheetNames
          (poner_encabezados (acc.1 ++ [(descName, [])]) descName) := by
        rw [sheetNames_poner]
        simp only [sheetNames, List.map_append]
        exact List.mem_append_left _ h
      by_cases hi : rowIllegal (rowOf fecha hora t)
      · simpa [hi] using h2
      · simp only [hi, Bool.false_eq_true, if_false]
        rw [sheetNames_appendRow]; exact h2
  · cases b
    · simp only
      by_cases hi : rowIllegal (rowOf fecha hora t)
      · simpa [hi] using h
      · simp only [hi, Bool.false_eq_true, if_false]
        rw [sheetNames_appendRow]; exact h
    · simp only
      by_cases hh : nombre_hoja_seguro (hashv (pyStrip t.nombre)) (pyStrip t.nombre)
          ∈ sheetNames acc.1
      · rw [if_pos hh]
        simp only [Bool.true_eq_false, if_false]
        by_cases hi : rowIllegal (rowOf fecha hora t)
        · simp only [hi, if_true]
          rw [sheetNames_poner]; exact h
        · simp only [hi, Bool.false_eq_true, if_false]
          rw [sheetNames_appendRow, sheetNames_poner]; exact h
      · rw [if_neg hh]
        rcases inus_mem_insertar _ acc.1 h with ⟨hok, hmem⟩
        rw [hok]
        simp only [Bool.true_eq_false, if_false]
        by_cases hi : rowIllegal (rowOf fecha hora t)
        · simp only [hi, if_true]
          rw [sheetNames_poner]; exact hmem
        · simp only [hi, Bool.false_eq_true, if_false]
          rw [sheetNames_appendRow, sheetNames_poner]; exact hmem

theorem paso_counts (hashv : String → ℕ) (fecha hora : String)
    (acc : Workbook × ℕ × ℕ × ℕ) (t : TramoNorm)
    (h : inusName ∈ sheetNames acc.1) :
    (guardar_paso hashv fecha hora acc t).2.1
        = acc.2.1 + (if savableB fecha hora t then 1 else 0)
    ∧ (guardar_paso hashv fecha hora acc t).2.2.1
        = acc.2.2.1 + (if (t.es_usual == some true) && savableB fecha hora t
            then 1 else 0)
    ∧ (guardar_paso hashv fecha hora acc t).2.2.2
        = acc.2.2.2 + (if (t.es_usual == some false) && savableB fecha hora t
            then 1 else 0) := by
  unfold guardar_paso savableB
  rcases he : t.es_usual with _ | b
  · simp only
    by_cases hi : rowIllegal (rowOf fecha hora t)
    · by_cases hd : descName ∈ sheetNames acc.1 <;> simp [hd, hi]
    · by_cases hd : descName ∈ sheetNames acc.1 <;> simp [hd, hi]
  · cases b
    · simp only
      by_cases hi : rowIllegal (rowOf fecha hora t) <;> simp [hi]
    · simp only
      by_cases hh : nombre_hoja_seguro (hashv (pyStrip t.nombre)) (pyStrip t.nombre)
          ∈ sheetNames acc.1
      · rw [if_pos hh]
        by_cases hi : rowIllegal (rowOf fecha hora t) <;> simp [hi]
      · rw [if_neg hh]
        rcases inus_mem_insertar _ acc.1 h with ⟨hok, _⟩
        rw [hok]
        by_cases hi : rowIllegal (rowOf fecha hora t) <;> simp [hi]

theorem guardar_loop_counts (hashv : String → ℕ) (fecha hora : String) :
    ∀ (tramos : List TramoNorm) (w : Workbook) (g u i : ℕ),
    inusName ∈ sheetNames w →
    (tramos.foldl (guardar_paso hashv fecha hora) (w, g, u, i)).2
      = (g + tramos.countP (fun t => savableB fecha hora t),
         u + tramos.countP (fun t => (t.es_usual == some true)
            && savableB fecha hora t),
         i + tramos.countP (fun t => (t.es_usual == some false)
            && savableB fecha hora t)) := by
  intro tramos
  induction tramos with
  | nil => intro w g u i _; simp
  | cons t ts ih =>
    intro w g u i hmem
    rw [List.foldl_cons]
    have hstep := inus_mem_paso hashv fecha hora (w, g, u, i) t hmem
    rcases paso_counts hashv fecha hora (w, g, u, i) t hmem with ⟨hg, hu, hi⟩
    have hsurj : guardar_paso hashv fecha hora (w, g, u, i) t
        = ((guardar_paso hashv fecha hora (w, g, u, i) t).1,
           (guardar_paso hashv fecha hora (w, g, u, i) t).2.1,
           (guardar_paso hashv fecha hora (w, g, u, i) t).2.2.1,
           (guardar_paso hashv fecha hora (w, g, u, i) t).2.2.2) := rfl
    rw [hsurj, hg, hu, hi]
    rw [ih _ _ _ _ hstep]
    simp only [List.countP_cons]
    refine congrArg₂ _ ?_ (congrArg₂ _ ?_ ?_) <;> omega

theorem guardar_loop_counts_g (hashv : String → ℕ) (fecha hora : String)
    (tramos : List TramoNorm) (w : Workbook) (g u i : ℕ)
    (h : inusName ∈ sheetNames w) :
    (tramos.foldl (guardar_paso hashv fecha hora) (w, g, u, i)).2.1
      = g + tramos.countP (fun t => savableB fecha hora t) := by
  rw [guardar_loop_counts hashv fecha hora tramos w g u i h]

theorem guardar_loop_counts_u (hashv : String → ℕ) (fecha hora : String)
    (tramos : List TramoNorm) (w : Workbook) (g u i : ℕ)
    (h : inusName ∈ sheetNames w) :
    (tramos.foldl (guardar_paso hashv fecha hora) (w, g, u, i)).2.2.1
      = u + tramos.countP (fun t => (t.es_usual == some true)
          && savableB fecha hora t) := by
  rw [guardar_loop_counts hashv fecha hora tramos w g u i h]

theorem guardar_loop_counts_i (hashv : String → ℕ) (fecha hora : String)
    (tramos : List TramoNorm) (w : Workbook) (g u i : ℕ)
    (h : inusName ∈ sheetNames w) :
    (tramos.foldl (guardar_paso hashv fecha hora) (w, g, u, i)).2.2.2
      = i + tramos.countP (fun t => (t.es_usual == some false)
          && savableB fecha hora t) := by
  rw [guardar_loop_counts hashv fecha hora tramos w g u i h]

theorem countP_savable_partition (fecha hora : String) :
    ∀ (tramos : List TramoNorm),
    tramos.countP (fun t => savableB fecha hora t)
      = tramos.countP (fun t => (t.es_usual == some true) && savableB fecha hora t)
        + tramos.countP (fun t => (t.es_usual == some false) && savableB fecha hora t)
        + tramos.countP (fun t => (t.es_usual == none) && savableB fecha hora t) := by
  intro tramos
  induction tramos with
  | nil => simp
  | cons t ts ih =>
    simp only [List.countP_cons]
    rcases t.es_usual with _ | b
    · by_cases hs : savableB fecha hora t <;> simp [hs] <;> omega
    · cases b <;> by_cases hs : savableB fecha hora t <;> simp [hs] <;> omega

/-- C10.  The totals returned by the persist operation: `total_saved`
equals `usual_count + unusual_count` plus the number of Unknown-category
records appended to "Desconocidos"; the concrete run with a single
Unknown record returns `(1, 0, 0)`, so the total strictly exceeds
`usual + unusual`. -/
theorem C10_total_counts :
    (∀ (hashv : String → ℕ) (fecha hora : String) (outs : List Bool)
        (st : StorageState) (tramos : List TramoNorm) (w : Workbook),
      st.wb = some w → st.archivo_excel.getD "" ≠ "" →
      ((guardar_tramos hashv fecha hora outs st tramos).2).1
        = ((guardar_tramos hashv fecha hora outs st tramos).2).2.1
          + ((guardar_tramos hashv fecha hora outs st tramos).2).2.2
          + tramos.countP (fun t => (t.es_usual == none) && savableB fecha hora t))
    ∧ (guardar_tramos (fun _ => 0) "01/01/2026" "12:00:00" [true] freshState
        [tramoDesconocido]).2 = (1, 0, 0) := by
  constructor
  · intro hashv fecha hora outs st tramos w hw ha
    unfold guardar_tramos
    rw [hw]
    simp only [ha, if_false]
    have hmem : inusName ∈ sheetNames
        (let w0 := if inusName ∈ sheetNames w then w else (inusName, []) :: w
         let w0 := poner_encabezados w0 inusName
         if descName ∈ sheetNames w0 then poner_encabezados w0 descName else w0) := by
      simp only
      by_cases h1 : inusName ∈ sheetNames w
      · rw [if_pos h1]
        by_cases h2 : descName ∈ sheetNames (poner_encabezados w inusName)
        · rw [if_pos h2, sheetNames_poner, sheetNames_poner]; exact h1
        · rw [if_neg h2, sheetNames_poner]; exact h1
      · rw [if_neg h1]
        have h3 : inusName ∈ sheetNames (poner_encabezados ((inusName, []) :: w)
            inusName) := by
          rw [sheetNames_poner]; simp [sheetNames]
        by_cases h2 : descName ∈ sheetNames (poner_encabezados ((inusName, []) :: w)
            inusName)
        · rw [if_pos h2, sheetNames_poner]; exact h3
        · rw [if_neg h2]; exact h3
    rw [guardar_loop_counts_g hashv fecha hora tramos _ 0 0 0 hmem,
      guardar_loop_counts_u hashv fecha hora tramos _ 0 0 0 hmem,
      guardar_loop_counts_i hashv fecha hora tramos _ 0 0 0 hmem]
    have hpart := countP_savable_partition fecha hora tramos
    omega
  · decide

/-- Witness for C10: the count identity applied at a concrete mixed batch
(one usual, one unknown record). -/
theorem C10_total_counts_witness :
    ((guardar_tramos (fun _ => 0) "01/01/2026" "12:00:00" [true] freshState
        [tramoAveX, tramoDesconocido]).2).1
      = ((guardar_tramos (fun _ => 0) "01/01/2026" "12:00:00" [true] freshState
          [tramoAveX, tramoDesconocido]).2).2.1
        + ((guardar_tramos (fun _ => 0) "01/01/2026" "12:00:00" [true] freshState
            [tramoAveX, tramoDesconocido]).2).2.2
        + [tramoAveX, tramoDesconocido].countP
            (fun t => (t.es_usual == none) && savableB "01/01/2026" "12:00:00" t) :=
  C10_total_counts.1 (fun _ => 0) "01/01/2026" "12:00:00" [true] freshState
    [tramoAveX, tramoDesconocido] [(inusName, [headerRow])] rfl (by decide)

/-! ## Claim C4: the dedup/parse scenario and sheet-name sanitization -/

theorem parse_dist_45_shape : parse_dist_km "4.5 km"
    = some ((digitsToNat ['4'] : ℚ)
        + (digitsToNat ['5'] : ℚ) / 10 ^ (['5'].length)) := rfl

theorem parse_dist_45 : parse_dist_km "4.5 km" = some (9 / 2 : ℚ) := by
  rw [parse_dist_45_shape]
  norm_num [digitsToNat, digitVal, show '4'.toNat = 52 from rfl,
    show '5'.toNat = 53 from rfl, show '0'.toNat = 48 from rfl]

theorem pad3_length_le (n : ℕ) (h : n < 1000) : (pad3 n).length ≤ 3 := by
  have ht : toString n = Nat.repr n := rfl
  unfold pad3
  by_cases h1 : n < 10
  · rw [if_pos h1, String.length_append, ht]
    have hr := Nat.repr_length n 1 one_pos (by simpa using h1)
    have h00 : ("00" : String).length = 2 := rfl
    omega
  · rw [if_neg h1]
    by_cases h2 : n < 100
    · rw [if_pos h2, String.length_append, ht]
      have he : (10 : ℕ) ^ 2 = 100 := by norm_num
      have hr := Nat.repr_length n 2 (by omega) (by omega)
      have h0 : ("0" : String).length = 1 := rfl
      omega
    · rw [if_neg h2, ht]
      have he : (10 : ℕ) ^ 3 = 1000 := by norm_num
      have hr := Nat.repr_length n 3 (by omega) (by omega)
      omega

theorem nombre_hoja_seguro_AveX (hA : ℕ) :
    nombre_hoja_seguro hA "Ave X" = "Ave X_" ++ pad3 (hA % 1000) := by
  have h1 : (pad3 (hA % 1000)).length ≤ 3 :=
    pad3_length_le _ (Nat.mod_lt _ (by norm_num))
  have hlen : (pad3 (hA % 1000)).data.length ≤ 25 := by
    have h2 : (pad3 (hA % 1000)).length = (pad3 (hA % 1000)).data.length := rfl
    omega
  show String.mk ('A' :: 'v' :: 'e' :: ' ' :: 'X' :: '_'
      :: ((pad3 (hA % 1000)).data.take 25)) = "Ave X_" ++ pad3 (hA % 1000)
  rw [List.take_of_length_le hlen]
  rfl

/-- C4, counterexample.  The claim says the deduplicated "Ave X" record
lands in a sheet named exactly `"Ave X"`, and that the truncate-and-suffix
sanitization is applied only to identifiers containing characters illegal
in the persistence format.  In the code, `nombre_hoja_seguro` appends the
`_NNN` hash suffix to every name: although `"Ave X"` contains none of the
forbidden characters `: \ / * ? [ ]`, the sheet it creates is
`"Ave X_NNN"`, and no sheet named `"Ave X"` exists after the persist call
(evaluated here with hash value 0). -/
theorem C4_sheet_name_counterexample :
    (detect_all [rawAveX, rawAveX]).length = 1
    ∧ ("Ave X".data.all (fun c =>
        !(c = ':' || c = '\\' || c = '/' || c = '*' || c = '?' || c = '['
          || c = ']'))) = true
    ∧ nombre_hoja_seguro 0 "Ave X" ≠ "Ave X"
    ∧ "Ave X" ∉ sheetNames ((guardar_tramos (fun _ => 0) "01/01/2026" "12:00:00"
        [true] freshState (detect_all [rawAveX, rawAveX])).1.wb.getD []) := by
  refine ⟨rfl, rfl, by decide, by decide⟩

/-- C4, amended.  The batch of two identical "Ave X" records yields, after
deduplication, exactly one persisted record with `tiempo_mmss = "12:00"`
and `dist_km = 4.5`; it lands in the sheet
`nombre_hoja_seguro("Ave X") = "Ave X_" ++ NNN` — the truncate-and-suffix
sanitization (27-character truncation plus `_` and three digits of
`abs(hash(name)) % 1000`) is applied to every sheet name, not only to
names with illegal characters.  The run is evaluated with hash value 0 and
the name formula is proved for every hash value. -/
theorem C4_amended_sanitized_sheet_scenario :
    (∀ hashAbs : ℕ,
      nombre_hoja_seguro hashAbs "Ave X" = "Ave X_" ++ pad3 (hashAbs % 1000))
    ∧ (detect_all [rawAveX, rawAveX]).map (fun t => (t.tiempo_mmss, t.dist_km))
        = [("12:00", some (9 / 2 : ℚ))]
    ∧ getSheet ((guardar_tramos (fun _ => 0) "01/01/2026" "12:00:00" [true]
          freshState (detect_all [rawAveX, rawAveX])).1.wb.getD [])
        (nombre_hoja_seguro 0 "Ave X")
        = [headerRow, rowOf "01/01/2026" "12:00:00" (normalizeRaw rawAveX)]
    ∧ (guardar_tramos (fun _ => 0) "01/01/2026" "12:00:00" [true]
        freshState (detect_all [rawAveX, rawAveX])).2 = (1, 1, 0) := by
  refine ⟨nombre_hoja_seguro_AveX, ?_, rfl, rfl⟩
  have h1 : detect_all [rawAveX, rawAveX] = [normalizeRaw rawAveX] := rfl
  have h2 : (normalizeRaw rawAveX).tiempo_mmss = "12:00" := rfl
  have h3 : (normalizeRaw rawAveX).dist_km = parse_dist_km "4.5 km" := rfl
  rw [h1, List.map_cons, List.map_nil, h2, h3, parse_dist_45]

/-- A raw record whose classification hint is `"WATCH"`: not the literal
hint `"watch"`, yet classified Usual by the code. -/
def rawHintWATCH : RawTramo :=
  { name := "Calle 1", current := "", historic := "", dist := "", jam := none,
    section_flag := "WATCH" }

/-- C5, counterexample.  The claim says any hint other than `"unusual"` and
`"watch"` (including empty) yields Unknown.  The code lowercases and strips
the hint first (analyzer.py line 530), so the hint `"WATCH"` — which is
neither of the two literals — yields Usual (`es_usual = some true`), not
Unknown (`none`). -/
theorem C5_hint_case_counterexample :
    rawHintWATCH.section_flag ≠ "unusual"
    ∧ rawHintWATCH.section_flag ≠ "watch"
    ∧ (detect_all [rawHintWATCH]).map (fun t => t.es_usual) = [some true] := by
  refine ⟨by decide, by decide, by decide⟩

/-- C5, amended: classification first normalizes the hint with
`strip().lower()`; the normalized hint `"unusual"` yields Unusual
(`some false`), `"watch"` yields Usual (`some true`), anything else yields
Unknown (`none`) — and the category is a pure function of the hint alone:
no other field of the record occurs in the result. -/
theorem C5_classification_pure_in_hint :
    ∀ r : RawTramo, pyStrip r.name ≠ "" →
    (detect_all [r]).map (fun t => t.es_usual)
      = [if pyLower (pyStrip r.section_flag) = "unusual" then some false
         else if pyLower (pyStrip r.section_flag) = "watch" then some true
         else none] := by
  intro r h
  simp only [detect_all, detect_all_loop, h, if_false, List.not_mem_nil, ite_false,
    List.map_cons, List.map_nil, normalizeRaw]

/-- A raw record with hint `" Watch "`, which normalizes to `"watch"`. -/
def rawHintWatchSpaces : RawTramo :=
  { name := "Calle 2", current := "", historic := "", dist := "", jam := none,
    section_flag := " Watch " }

/-- Witness for C5: the amended table applied to a concrete record with
hint `" Watch "`, which normalizes to `"watch"` and is classified Usual. -/
theorem C5_classification_pure_in_hint_witness :
    (detect_all [rawHintWatchSpaces]).map (fun t => t.es_usual)
      = [if pyLower (pyStrip rawHintWatchSpaces.section_flag) = "unusual" then some false
         else if pyLower (pyStrip rawHintWatchSpaces.section_flag) = "watch" then some true
         else none] :=
  C5_classification_pure_in_hint rawHintWatchSpaces (by decide)

end CCM
